import Mathlib

/-!
Shallow embedding of gapless.js (src/index.ts): a gapless sequential-audio
playback controller.  HTMLAudioElement sinks are modelled as records whose
event-callback slots are tracked as attachment flags; observable callbacks
(onTrackStart, onTrackEnd, onStateChanged, onError) are modelled as an event
log appended in call order.  JavaScript numbers are modelled as exact
rationals; the non-finite values needed by getTimeDisplay are modelled by the
JSNum type.  Sink handles that the controller sets to null are moved to a
`released` log carrying the sink's record at the moment of release, so that
the callback-clearing discipline at teardown is checkable.
-/

/-- Mirrors `enum RepeatMode` (src/index.ts lines 1-5). -/
inductive RepeatMode
  | noRepeat
  | repeatOnce
  | repeatFull
deriving DecidableEq, Repr

/-- Mirrors `interface PlayerTrack` (id and url). -/
structure Track where
  id : String
  url : String
deriving DecidableEq, Repr

/-- Mirrors `interface PlayerState` (src/index.ts lines 12-25). -/
structure PlayerState where
  volume : ℚ
  isPaused : Bool
  position : ℚ
  repeatMode : RepeatMode
  isShuffled : Bool
  currentTrack : Option Track
  priorityTracks : List Track
  nextTracks : List Track
  previousTracks : List Track
deriving DecidableEq, Repr

/-- An HTMLAudioElement sink: media properties plus attachment flags for the
four event-callback slots the player wires (onerror, onprogress, onended,
oncanplaythrough). -/
structure AudioElem where
  src : String
  volume : ℚ
  loop : Bool
  currentTime : ℚ
  paused : Bool
  hasOnError : Bool
  hasOnProgress : Bool
  hasOnEnded : Bool
  hasOnCanPlayThrough : Bool
deriving DecidableEq, Repr

/-- The record produced by `new Audio()`. -/
def newAudio : AudioElem :=
  { src := ""
    volume := 1
    loop := false
    currentTime := 0
    paused := true
    hasOnError := false
    hasOnProgress := false
    hasOnEnded := false
    hasOnCanPlayThrough := false }

/-- Observable callback invocations, in chronological order. -/
inductive PlayerEvent
  | trackStart (track : Track)
  | trackEnd (track : Track)
  | stateChanged
  | errored (message : String)
deriving DecidableEq, Repr

/-- The `Player` class fields (src/index.ts lines 73-115).  The
`hasOn*` booleans record which observer callbacks were supplied to the
constructor.  `events` logs observer invocations; `released` logs each sink
record at the moment its handle was set to null. -/
structure Player where
  state : PlayerState
  isAudio1Active : Bool
  audio1 : Option AudioElem
  audio2 : Option AudioElem
  nonShuffledNextTracks : List Track
  shuffle : Option (List Track → PlayerState → Except String (List Track))
  randomPick : Nat → Nat
  hasOnTrackStart : Bool
  hasOnTrackEnd : Bool
  hasOnStateChanged : Bool
  hasOnError : Bool
  events : List PlayerEvent
  released : List AudioElem

/-- The constructor (src/index.ts lines 94-115). -/
def mkPlayer (volume : ℚ)
    (shuffle : Option (List Track → PlayerState → Except String (List Track)))
    (randomPick : Nat → Nat)
    (hasOnTrackStart hasOnTrackEnd hasOnStateChanged hasOnError : Bool) : Player :=
  { state :=
      { volume := volume
        isPaused := true
        position := 0
        repeatMode := RepeatMode.noRepeat
        isShuffled := false
        currentTrack := none
        priorityTracks := []
        nextTracks := []
        previousTracks := [] }
    isAudio1Active := true
    audio1 := none
    audio2 := none
    nonShuffledNextTracks := []
    shuffle := shuffle
    randomPick := randomPick
    hasOnTrackStart := hasOnTrackStart
    hasOnTrackEnd := hasOnTrackEnd
    hasOnStateChanged := hasOnStateChanged
    hasOnError := hasOnError
    events := []
    released := [] }

/-! ## getTimeDisplay (src/index.ts lines 44-71)

JavaScript numbers are modelled by `JSNum`: the code paths of
getTimeDisplay only ever compute with the original argument (in the
`seconds >= 3600` test and in `Math.floor(seconds / 3600)`) and with
`remainingTime`, which is finite after the isFinite guard. -/

/-- A JavaScript number as consumed by getTimeDisplay. -/
inductive JSNum
  | nan
  | negInf
  | posInf
  | finite (q : ℚ)
deriving DecidableEq, Repr

/-- Exact rational multiplication, stated through `Rat.divInt` so that it
evaluates by kernel reduction. -/
def qMul (a b : ℚ) : ℚ := Rat.divInt (a.num * b.num) ((a.den : Int) * (b.den : Int))

/-- Exact rational subtraction through `Rat.divInt`. -/
def qSub (a b : ℚ) : ℚ :=
  Rat.divInt (a.num * (b.den : Int) - b.num * (a.den : Int)) ((a.den : Int) * (b.den : Int))

/-- Exact rational division through `Rat.divInt`. -/
def qDiv (a b : ℚ) : ℚ := Rat.divInt (a.num * (b.den : Int)) ((a.den : Int) * b.num)

/-- JavaScript `x >= c` for a finite literal c (NaN compares false). -/
def jsGe (x : JSNum) (c : ℚ) : Bool :=
  match x with
  | JSNum.nan => false
  | JSNum.negInf => false
  | JSNum.posInf => true
  | JSNum.finite q => decide (c ≤ q)

/-- JavaScript truncation toward zero of a finite number: since `q.num` and
`q.den` are in lowest terms with positive denominator, T-division of the
numerator by the denominator truncates toward zero. -/
def jsTrunc (q : ℚ) : Int :=
  Int.tdiv q.num (q.den : Int)

/-- JavaScript `a % b` for finite a and positive literal b:
`a - b * trunc(a / b)`. -/
def jsMod (a b : ℚ) : ℚ :=
  qSub a (qMul b (Rat.ofInt (jsTrunc (qDiv a b))))

/-- Template interpolation of `Math.floor(x / d)` for a positive literal d,
including the non-finite renderings JavaScript would print. -/
def jsFloorDivString (x : JSNum) (d : ℚ) : String :=
  match x with
  | JSNum.nan => "NaN"
  | JSNum.negInf => "-Infinity"
  | JSNum.posInf => "Infinity"
  | JSNum.finite q => toString (qDiv q d).floor

/-- Mirrors `getTimeDisplay` (src/index.ts lines 44-71).  Note the source
reads the raw `seconds` argument (not the guarded `remainingTime`) both in
the `seconds >= 3600` test and in `Math.floor(seconds / 3600)`. -/
def getTimeDisplay (seconds : JSNum) : String :=
  let remainingTime : ℚ :=
    match seconds with
    | JSNum.finite q => q
    | _ => 0
  let hoursPart : String × ℚ :=
    if jsGe seconds 3600 then
      (jsFloorDivString seconds 3600 ++ ":", jsMod remainingTime 3600)
    else
      ("", remainingTime)
  let result := hoursPart.1
  let remainingTime := hoursPart.2
  let minutes : Int := (qDiv remainingTime 60).floor
  let remainingTime := jsMod remainingTime 60
  let result := if result ≠ "" ∧ minutes < 10 then result ++ "0" else result
  let result := result ++ toString minutes ++ ":"
  let result := if remainingTime < 10 then result ++ "0" else result
  result ++ toString remainingTime.floor

/-! ## Slot and observer helpers -/

/-- Mirrors the `activeAudioElement` getter (src/index.ts lines 343-349). -/
def activeAudioElement (p : Player) : Option AudioElem :=
  if p.isAudio1Active then p.audio1 else p.audio2

/-- Write back the active slot's element (mutation of the object returned by
`activeAudioElement`). -/
def setActiveAudio (p : Player) (a : AudioElem) : Player :=
  if p.isAudio1Active then { p with audio1 := some a } else { p with audio2 := some a }

/-- Mirrors `triggerOnStateChange` (src/index.ts lines 567-571). -/
def triggerOnStateChange (p : Player) : Player :=
  if p.hasOnStateChanged then { p with events := p.events ++ [PlayerEvent.stateChanged] } else p

/-- Mirrors `triggerOnTrackStart` (src/index.ts lines 555-559). -/
def triggerOnTrackStart (p : Player) : Player :=
  match p.state.currentTrack with
  | some t =>
    if p.hasOnTrackStart then { p with events := p.events ++ [PlayerEvent.trackStart t] } else p
  | none => p

/-- Mirrors `triggerOnTrackEnd` (src/index.ts lines 561-565). -/
def triggerOnTrackEnd (t : Track) (p : Player) : Player :=
  if p.hasOnTrackEnd then { p with events := p.events ++ [PlayerEvent.trackEnd t] } else p

/-- A caught exception delivered through `this.onError` inside a catch block. -/
def onErrorNotify (m : String) (p : Player) : Player :=
  if p.hasOnError then { p with events := p.events ++ [PlayerEvent.errored m] } else p

/-- Detach the four event callbacks of a sink (the
`onerror/onprogress/onended/oncanplaythrough = null` teardown sequence). -/
def clearCallbacks (a : AudioElem) : AudioElem :=
  { a with hasOnError := false, hasOnProgress := false, hasOnEnded := false,
           hasOnCanPlayThrough := false }

/-- `this.audio1 = null` with no preceding callback teardown: the handle is
released carrying whatever callbacks it still has. -/
def releaseAudio1Raw (p : Player) : Player :=
  match p.audio1 with
  | some a => { p with audio1 := none, released := p.released ++ [a] }
  | none => p

/-- `this.audio2 = null` with no preceding callback teardown. -/
def releaseAudio2Raw (p : Player) : Player :=
  match p.audio2 with
  | some a => { p with audio2 := none, released := p.released ++ [a] }
  | none => p

/-! ## JavaScript Array.prototype.slice -/

/-- `l.slice(start)` under JavaScript semantics (negative start counts from
the end, clamped to the array bounds). -/
def jsSliceFrom (l : List Track) (start : Int) : List Track :=
  let n : Int := l.length
  let s : Int := if start < 0 then max (n + start) 0 else min start n
  l.drop s.toNat

/-- `l.slice(0, stop)` under JavaScript semantics. -/
def jsSliceTo (l : List Track) (stop : Int) : List Track :=
  let n : Int := l.length
  let e : Int := if stop < 0 then max (n + stop) 0 else min stop n
  l.take e.toNat

/-! ## Synchronous commands

The commands below interact synchronously with sink properties.  An
interaction may raise (for example, HTMLMediaElement.volume throws for
values outside 0.0-1.0); the `beh` argument models the sink's behaviour:
`none` means no sink interaction throws, `some m` means the first sink
property interaction of the call throws an exception rendered as `m`.  Each
command's try/catch structure is translated from the source. -/

/-- Mirrors `setVolume` (src/index.ts lines 117-135): stores the raw percent
in state, then assigns `volumePercent / 100` to each existing sink.  A sink
assignment that throws is caught and routed to `onError`; the state store
has already happened by then. -/
def setVolume (beh : Option String) (volumePercent : ℚ) (p : Player) : Player :=
  let p1 := { p with state := { p.state with volume := volumePercent } }
  match beh with
  | some m =>
    if p1.audio1.isSome ∨ p1.audio2.isSome then onErrorNotify m p1
    else triggerOnStateChange p1
  | none =>
    let volume := qDiv volumePercent 100
    let p2 :=
      match p1.audio1 with
      | some a => { p1 with audio1 := some { a with volume := volume } }
      | none => p1
    let p3 :=
      match p2.audio2 with
      | some a => { p2 with audio2 := some { a with volume := volume } }
      | none => p2
    triggerOnStateChange p3

/-- Mirrors `setRepeatMode` (src/index.ts lines 137-152): stores the mode,
then sets the active sink's loop flag to `repeatMode !== RepeatMode.noRepeat`.
A throwing loop assignment is caught and routed to `onError`. -/
def setRepeatMode (beh : Option String) (repeatMode : RepeatMode) (p : Player) : Player :=
  let p1 := { p with state := { p.state with repeatMode := repeatMode } }
  match activeAudioElement p1 with
  | some a =>
    match beh with
    | some m => onErrorNotify m p1
    | none =>
      triggerOnStateChange
        (setActiveAudio p1 { a with loop := decide (repeatMode ≠ RepeatMode.noRepeat) })
  | none => triggerOnStateChange p1

/-- Mirrors `pause` (src/index.ts lines 172-188).  A throwing `audio.pause()`
is caught before `isPaused` is updated. -/
def pause (beh : Option String) (p : Player) : Player :=
  match activeAudioElement p with
  | some a =>
    match beh with
    | some m => onErrorNotify m p
    | none =>
      let p1 := setActiveAudio p { a with paused := true }
      if p1.state.isPaused then p1
      else triggerOnStateChange { p1 with state := { p1.state with isPaused := true } }
  | none =>
    if p.state.isPaused then p
    else triggerOnStateChange { p with state := { p.state with isPaused := true } }

/-- Mirrors `seek` (src/index.ts lines 216-229): clamps the position to zero
and assigns the active sink's currentTime.  No active sink means no effect. -/
def seek (beh : Option String) (position : ℚ) (p : Player) : Player :=
  match activeAudioElement p with
  | some a =>
    match beh with
    | some m => onErrorNotify m p
    | none =>
      triggerOnStateChange
        (setActiveAudio p { a with currentTime := if position < 0 then 0 else position })
  | none => p

/-! ## Shuffle (src/index.ts lines 154-170 and 538-553) -/

/-- One swap of the Fisher-Yates loop body. -/
def listSwap (l : List Track) (i j : Nat) : List Track :=
  match l.get? i, l.get? j with
  | some a, some b => (l.set i b).set j a
  | _, _ => l

/-- The `while (currentIndex !== 0)` loop of `defaultShuffle`: at index
`n + 1` the random index `pick (n+1) % (n+1)` models
`Math.floor(Math.random() * currentIndex)`, then the elements at the
decremented current index and the random index are swapped. -/
def fisherYates (pick : Nat → Nat) : Nat → List Track → List Track
  | 0, l => l
  | n + 1, l => fisherYates pick n (listSwap l n (pick (n + 1) % (n + 1)))

/-- Mirrors `defaultShuffle` (src/index.ts lines 538-553), over a copy of its
input. -/
def defaultShuffle (pick : Nat → Nat) (nonShuffledNextTracks : List Track) : List Track :=
  fisherYates pick nonShuffledNextTracks.length nonShuffledNextTracks

/-- Mirrors `enableShuffle` (src/index.ts lines 154-163).  The body is not
wrapped in try/catch: the second component is the exception a throwing
user-supplied shuffle function propagates to the caller.  `isShuffled` is
set before the shuffle function runs, so on a throw the returned player has
`isShuffled = true` but unchanged `nextTracks` and no notification. -/
def enableShuffle (p : Player) : Player × Option String :=
  let p1 := { p with state := { p.state with isShuffled := true } }
  let shuffled : Except String (List Track) :=
    match p.shuffle with
    | some f => f p.nonShuffledNextTracks p1.state
    | none => Except.ok (defaultShuffle p.randomPick p.nonShuffledNextTracks)
  match shuffled with
  | Except.ok l =>
    (triggerOnStateChange { p1 with state := { p1.state with nextTracks := l } }, none)
  | Except.error e => (p1, some e)

/-- Mirrors `disableShuffle` (src/index.ts lines 165-170): restores
`nextTracks` from the non-shuffled shadow list. -/
def disableShuffle (p : Player) : Player :=
  triggerOnStateChange
    { p with state := { p.state with isShuffled := false,
                                     nextTracks := p.nonShuffledNextTracks } }

/-- The state reached by a call of `enableShuffle` whether or not the shuffle
function threw (a throw propagates to the caller but the mutations made
before it persist). -/
def enableShuffleRun (p : Player) : Player := (enableShuffle p).1

/-- A finite sequence of shuffle-toggle calls: `true` is `enableShuffle`,
`false` is `disableShuffle`. -/
def applyShuffleOps : List Bool → Player → Player
  | [], p => p
  | true :: rest, p => applyShuffleOps rest (enableShuffleRun p)
  | false :: rest, p => applyShuffleOps rest (disableShuffle p)

/-! ## Playback (src/index.ts lines 190-206, 231-273, 321-341, 380-475) -/

/-- The body of `play` when an active sink exists (src/index.ts lines
192-197): `await audio.play()` starts the element, then `isPaused` is
cleared and a state change is published. -/
def resumeActive (p : Player) : Player :=
  match activeAudioElement p with
  | some a =>
    let p1 := setActiveAudio p { a with paused := false }
    triggerOnStateChange { p1 with state := { p1.state with isPaused := false } }
  | none => p

/-- The queue pop at the head of `playNextTrack` (src/index.ts lines
381-393): a manual track bypasses the queues; otherwise the head of
`priorityTracks` is taken, else the head of `nextTracks` (syncing the
non-shuffled shadow list to the remainder when not shuffled), else none. -/
def popNextTrack (manualNextTrack : Option Track) (p : Player) : Option Track × Player :=
  match manualNextTrack with
  | some t => (some t, p)
  | none =>
    match p.state.priorityTracks with
    | t :: rest => (some t, { p with state := { p.state with priorityTracks := rest } })
    | [] =>
      match p.state.nextTracks with
      | t :: rest =>
        let p1 := { p with state := { p.state with nextTracks := rest } }
        if p1.state.isShuffled then (some t, p1)
        else (some t, { p1 with nonShuffledNextTracks := rest })
      | [] => (none, p)

/-- The history push of `playNextTrack` (src/index.ts lines 395-399): the
current track, when distinct from the obtained next track, is pushed onto
the front of `previousTracks` and `onTrackEnd` fires for it. -/
def pushCurrentToHistory (nextTrack : Option Track) (p : Player) : Player :=
  match p.state.currentTrack with
  | some cur =>
    if (match nextTrack with | none => true | some nt => decide (cur.id ≠ nt.id)) then
      triggerOnTrackEnd cur
        { p with state := { p.state with previousTracks := cur :: p.state.previousTracks } }
    else p
  | none => p

/-- Lazy creation of the just-activated slot's element (src/index.ts lines
405-419): returns the element of the active slot, creating it when absent. -/
def ensureActiveElem (p : Player) : AudioElem × Player :=
  if p.isAudio1Active then
    match p.audio1 with
    | some a => (a, p)
    | none => (newAudio, { p with audio1 := some newAudio })
  else
    match p.audio2 with
    | some a => (a, p)
    | none => (newAudio, { p with audio2 := some newAudio })

/-- Teardown of the previous track's element (src/index.ts lines 451-466):
clears the standby slot's callbacks, then releases its handle. -/
def destroyPreviousBuffer (p : Player) : Player :=
  if p.isAudio1Active then
    match p.audio2 with
    | some b => { p with audio2 := none, released := p.released ++ [clearCallbacks b] }
    | none => p
  else
    match p.audio1 with
    | some b => { p with audio1 := none, released := p.released ++ [clearCallbacks b] }
    | none => p

/-- Mirrors `playNextTrack` (src/index.ts lines 380-475).  Sink property
interactions are assumed not to throw here.  The final `await this.play()`
of the source re-reads the active element, which is exactly the element
assigned earlier in the same branch, so the call reduces to `resumeActive`. -/
def playNextTrack (manualNextTrack : Option Track) (p : Player) : Player :=
  let popped := popNextTrack manualNextTrack p
  let nextTrack := popped.1
  let pHist := pushCurrentToHistory nextTrack popped.2
  match nextTrack with
  | some nt =>
    let pCur := { pHist with
      state := { pHist.state with currentTrack := some nt },
      isAudio1Active := !pHist.isAudio1Active }
    let created := ensureActiveElem pCur
    let a0 := created.1
    let pNew := created.2
    let a1 := if pNew.hasOnError ∧ ¬a0.hasOnError then { a0 with hasOnError := true } else a0
    let a2 := { a1 with
      hasOnCanPlayThrough := true
      hasOnProgress := true
      hasOnEnded := true
      volume := pNew.state.volume
      src := nt.url
      currentTime := 0 }
    let pSet := setActiveAudio pNew a2
    let pClean := if manualNextTrack.isNone then destroyPreviousBuffer pSet else pSet
    resumeActive (triggerOnTrackStart pClean)
  | none =>
    match pHist.state.currentTrack with
    | some _ =>
      triggerOnStateChange { pHist with state := { pHist.state with currentTrack := none } }
    | none => pHist

/-- Mirrors `play` (src/index.ts lines 190-206): resume the active sink if
one exists, else advance passing the stored current track as the manual next
track. -/
def play (p : Player) : Player :=
  match activeAudioElement p with
  | some _ => resumeActive p
  | none => playNextTrack p.state.currentTrack p

/-- The opening of `playTracks` (src/index.ts lines 322-325): pause the
active element when one exists. -/
def pauseActiveElement (p : Player) : Player :=
  match activeAudioElement p with
  | some a => setActiveAudio p { a with paused := true }
  | none => p

/-- The body of `playTracks` before its final `play` call (src/index.ts
lines 322-339): pauses the active sink, sets both sink handles to null with
no callback teardown, marks slot 1 active, and resets the three lists
(`previousTracks` receives `tracks.slice(0, playIndex - 1)` when
`0 < playIndex < tracks.length`, else `[]`; `nextTracks` receives
`tracks.slice(playIndex)`). -/
def resetQueues (tracks : List Track) (playIndex : Int) (p : Player) : Player :=
  let p1 := pauseActiveElement p
  let p2 := { releaseAudio2Raw (releaseAudio1Raw p1) with isAudio1Active := true }
  let prev :=
    if 0 < playIndex ∧ playIndex < (tracks.length : Int) then jsSliceTo tracks (playIndex - 1)
    else []
  { p2 with state :=
    { p2.state with
      priorityTracks := []
      previousTracks := prev
      nextTracks := jsSliceFrom tracks playIndex } }

/-- Mirrors `playTracks` (src/index.ts lines 321-341): the queue/slot reset
followed by `await this.play()`. -/
def playTracks (tracks : List Track) (playIndex : Int) (p : Player) : Player :=
  play (resetQueues tracks playIndex p)

/-- The tail of `previousTrack` (src/index.ts lines 255-267): runs when the
3-second-rewind branch was not taken, both with and without an active sink. -/
def previousTrackQueuePart (p : Player) : Player :=
  match p.state.previousTracks with
  | shifted :: rest =>
    let p1 :=
      match p.state.currentTrack with
      | some cur =>
        triggerOnTrackEnd cur
          { p with state := { p.state with nextTracks := cur :: p.state.nextTracks } }
      | none => p
    let p2 := { p1 with state :=
      { p1.state with previousTracks := rest, currentTrack := some shifted } }
    playNextTrack (some shifted) p2
  | [] => p

/-- Mirrors `previousTrack` (src/index.ts lines 231-273).  Sink property
interactions are assumed not to throw. -/
def previousTrack (p : Player) : Player :=
  match activeAudioElement p with
  | some a =>
    let aPaused := { a with paused := true }
    if 3 ≤ a.currentTime ∨ p.state.previousTracks = [] then
      let p1 := setActiveAudio p { aPaused with currentTime := 0 }
      let p2 := if p1.state.currentTrack.isSome then triggerOnTrackStart p1 else p1
      play p2
    else
      let p1 := setActiveAudio p { aPaused with hasOnCanPlayThrough := false, currentTime := 0 }
      previousTrackQueuePart p1
  | none => previousTrackQueuePart p

/-! ## Playback commands under a throwing sink

The asynchronous commands also wrap their bodies in try/catch (`play` lines
190-206, `previousTrack` lines 231-273, `nextTrack` lines 275-289), while
`togglePlay` (lines 208-214) merely dispatches to `play`/`pause`.  The
variants below carry the same `beh` parameter as the synchronous commands:
`some m` means the first sink property interaction of the call throws an
exception rendered as `m`.  With an active sink that first interaction is
`audio.play()` for `play` and `audio.pause()` for `previousTrack` and
`nextTrack`; inside an advance-to-next it is the `audio.volume` assignment
of src/index.ts line 447 (HTMLMediaElement.volume throws for values outside
0.0-1.0, and the raw 0-100 store makes that reachable), which happens after
the four callbacks are wired and before src/currentTime are assigned.
`playNextTrack` itself has no handler, so its second component is the
exception it propagates to its caller; at `beh = none` each variant agrees
with the base embedding (see the agreement lemmas). -/

/-- Mirrors `playNextTrack` under the `beh` sink behaviour: under a throw
the activated slot holds the wired element with volume, src and currentTime
still unassigned, no teardown has run, no onTrackStart fired, and the
exception is returned for the caller's handler. -/
def playNextTrackE (beh : Option String) (manualNextTrack : Option Track) (p : Player) :
    Player × Option String :=
  let popped := popNextTrack manualNextTrack p
  let nextTrack := popped.1
  let pHist := pushCurrentToHistory nextTrack popped.2
  match nextTrack with
  | some nt =>
    let pCur := { pHist with
      state := { pHist.state with currentTrack := some nt },
      isAudio1Active := !pHist.isAudio1Active }
    let created := ensureActiveElem pCur
    let a0 := created.1
    let pNew := created.2
    let a1 := if pNew.hasOnError ∧ ¬a0.hasOnError then { a0 with hasOnError := true } else a0
    let aWired := { a1 with
      hasOnCanPlayThrough := true
      hasOnProgress := true
      hasOnEnded := true }
    match beh with
    | some m => (setActiveAudio pNew aWired, some m)
    | none =>
      let a2 := { aWired with volume := pNew.state.volume, src := nt.url, currentTime := 0 }
      let pSet := setActiveAudio pNew a2
      let pClean := if manualNextTrack.isNone then destroyPreviousBuffer pSet else pSet
      (resumeActive (triggerOnTrackStart pClean), none)
  | none =>
    match pHist.state.currentTrack with
    | some _ =>
      (triggerOnStateChange { pHist with state := { pHist.state with currentTrack := none } },
        none)
    | none => (pHist, none)

/-- Mirrors `play` under the `beh` sink behaviour: a throwing
`await audio.play()` is caught by the command's handler before `isPaused`
is cleared; with no active sink the advance-to-next runs inside the same
handler, so an exception it propagates is also converted. -/
def playE (beh : Option String) (p : Player) : Player :=
  match activeAudioElement p with
  | some _ =>
    match beh with
    | some m => onErrorNotify m p
    | none => resumeActive p
  | none =>
    match playNextTrackE beh p.state.currentTrack p with
    | (q, some m) => onErrorNotify m q
    | (q, none) => q

/-- Mirrors `togglePlay` (src/index.ts lines 208-214): no handler of its
own, it dispatches on `isPaused` to `play` or `pause`, each of which
catches. -/
def togglePlayE (beh : Option String) (p : Player) : Player :=
  if p.state.isPaused then playE beh p else pause beh p

/-- The tail of `previousTrack` under the `beh` sink behaviour. -/
def previousTrackQueuePartE (beh : Option String) (p : Player) : Player × Option String :=
  match p.state.previousTracks with
  | shifted :: rest =>
    let p1 :=
      match p.state.currentTrack with
      | some cur =>
        triggerOnTrackEnd cur
          { p with state := { p.state with nextTracks := cur :: p.state.nextTracks } }
      | none => p
    let p2 := { p1 with state :=
      { p1.state with previousTracks := rest, currentTrack := some shifted } }
    playNextTrackE beh (some shifted) p2
  | [] => (p, none)

/-- Mirrors `previousTrack` under the `beh` sink behaviour: with an active
sink the initial `audio.pause()` throws first, so the handler converts the
exception before any state is touched; with no sink the queue part runs
inside the handler. -/
def previousTrackE (beh : Option String) (p : Player) : Player :=
  match activeAudioElement p with
  | some a =>
    match beh with
    | some m => onErrorNotify m p
    | none =>
      let aPaused := { a with paused := true }
      if 3 ≤ a.currentTime ∨ p.state.previousTracks = [] then
        let p1 := setActiveAudio p { aPaused with currentTime := 0 }
        let p2 := if p1.state.currentTrack.isSome then triggerOnTrackStart p1 else p1
        playE none p2
      else
        let p1 := setActiveAudio p
          { aPaused with hasOnCanPlayThrough := false, currentTime := 0 }
        (previousTrackQueuePartE none p1).1
  | none =>
    match previousTrackQueuePartE beh p with
    | (q, some m) => onErrorNotify m q
    | (q, none) => q

/-- Mirrors `nextTrack` (src/index.ts lines 275-289) under the `beh` sink
behaviour: with an active sink the `audio.pause()` throws first and the
handler converts it before `isPaused` is set; otherwise the unconditional
advance-to-next runs inside the handler. -/
def nextTrackE (beh : Option String) (p : Player) : Player :=
  match activeAudioElement p with
  | some a =>
    match beh with
    | some m => onErrorNotify m p
    | none =>
      let p1 := setActiveAudio p { a with paused := true }
      let p2 := { p1 with state := { p1.state with isPaused := true } }
      (playNextTrackE none none p2).1
  | none =>
    match playNextTrackE beh none p with
    | (q, some m) => onErrorNotify m q
    | (q, none) => q

/-! ## Concrete fixtures -/

/-- Sample track A. -/
def tA : Track := { id := "a", url := "a.mp3" }

/-- Sample track B. -/
def tB : Track := { id := "b", url := "b.mp3" }

/-- Sample track C. -/
def tC : Track := { id := "c", url := "c.mp3" }

/-- Sample track X, distinct from the lists used with playTracks. -/
def tX : Track := { id := "x", url := "x.mp3" }

/-- A freshly constructed player: volume 100, default shuffle, all four
observer callbacks supplied. -/
def player0 : Player := mkPlayer 100 none (fun _ => 0) true true true true

/-- A freshly constructed player with volume 50. -/
def player50 : Player := mkPlayer 50 none (fun _ => 0) true true true true

/-- A player whose stored current track is `tX` but which has no sink yet,
as after a previous session whose sinks were torn down. -/
def playerWithCurrentX : Player :=
  { player0 with state := { player0.state with currentTrack := some tX } }

/-- A constructed player whose user-supplied shuffle function throws. -/
def playerThrowingShuffle : Player :=
  mkPlayer 100 (some (fun _ _ => Except.error "shuffle boom")) (fun _ => 0) true true true true

/-- A player with one active, playing sink: the state reached by
`playTracks([tA], 0)` on a fresh player. -/
def playerSink : Player := playTracks [tA] 0 player0

/-- A pure list-reversal shuffle strategy used as a concrete non-throwing
user shuffle. -/
def gRev : List Track → PlayerState → List Track := fun l _ => l.reverse

/-- A player with a user shuffle that reverses its input list and a
three-track queue whose shadow list matches. -/
def playerShuffleG : Player :=
  { mkPlayer 100 (some (fun l st => Except.ok (gRev l st))) (fun _ => 0) true true true true with
    state := { (mkPlayer 100 none (fun _ => 0) true true true true).state with
      nextTracks := [tA, tB, tC] }
    nonShuffledNextTracks := [tA, tB, tC] }

/-- An active sink whose elapsed position is 1 second. -/
def audioAt1 : AudioElem := { newAudio with src := "a.mp3", currentTime := 1 }

/-- A player playing `tA` at position 1 with history `[tB]` and queue
`[tC]`. -/
def playerHist : Player :=
  { player0 with
    audio1 := some audioAt1
    state := { player0.state with
      currentTrack := some tA
      previousTracks := [tB]
      nextTracks := [tC] } }

/-- A player with a current track and exhausted queues. -/
def playerExhausted : Player :=
  { player0 with state := { player0.state with currentTrack := some tA } }

/-! ## Preservation lemmas for the slot and observer helpers -/

theorem triggerOnStateChange_state (p : Player) :
    (triggerOnStateChange p).state = p.state := by
  unfold triggerOnStateChange; split <;> rfl

theorem triggerOnStateChange_nonShuffled (p : Player) :
    (triggerOnStateChange p).nonShuffledNextTracks = p.nonShuffledNextTracks := by
  unfold triggerOnStateChange; split <;> rfl

theorem triggerOnStateChange_shuffleFn (p : Player) :
    (triggerOnStateChange p).shuffle = p.shuffle := by
  unfold triggerOnStateChange; split <;> rfl

theorem triggerOnStateChange_randomPick (p : Player) :
    (triggerOnStateChange p).randomPick = p.randomPick := by
  unfold triggerOnStateChange; split <;> rfl

theorem triggerOnStateChange_active (p : Player) :
    activeAudioElement (triggerOnStateChange p) = activeAudioElement p := by
  unfold triggerOnStateChange activeAudioElement; split <;> rfl

theorem triggerOnTrackStart_state (p : Player) :
    (triggerOnTrackStart p).state = p.state := by
  unfold triggerOnTrackStart
  cases p.state.currentTrack
  · rfl
  · by_cases h : p.hasOnTrackStart <;> simp [h]

theorem triggerOnTrackStart_active (p : Player) :
    activeAudioElement (triggerOnTrackStart p) = activeAudioElement p := by
  unfold triggerOnTrackStart
  cases p.state.currentTrack
  · rfl
  · by_cases h : p.hasOnTrackStart <;> simp [h, activeAudioElement]

theorem triggerOnTrackEnd_state (t : Track) (p : Player) :
    (triggerOnTrackEnd t p).state = p.state := by
  unfold triggerOnTrackEnd; split <;> rfl

theorem setActiveAudio_state (p : Player) (a : AudioElem) :
    (setActiveAudio p a).state = p.state := by
  unfold setActiveAudio; split <;> rfl

theorem setActiveAudio_active (p : Player) (a : AudioElem) :
    activeAudioElement (setActiveAudio p a) = some a := by
  unfold setActiveAudio activeAudioElement
  by_cases h : p.isAudio1Active <;> simp [h]

theorem resumeActive_state_queues (p : Player) :
    (resumeActive p).state.currentTrack = p.state.currentTrack
      ∧ (resumeActive p).state.nextTracks = p.state.nextTracks
      ∧ (resumeActive p).state.previousTracks = p.state.previousTracks
      ∧ (resumeActive p).state.priorityTracks = p.state.priorityTracks := by
  unfold resumeActive
  cases h : activeAudioElement p with
  | none => exact ⟨rfl, rfl, rfl, rfl⟩
  | some a => simp [triggerOnStateChange_state, setActiveAudio_state]

theorem ensureActiveElem_state (p : Player) :
    (ensureActiveElem p).2.state = p.state := by
  unfold ensureActiveElem
  by_cases h : p.isAudio1Active
  · simp only [h, if_true]
    cases p.audio1 <;> rfl
  · simp only [h, if_false, Bool.false_eq_true]
    cases p.audio2 <;> rfl

theorem ensureActiveElem_isAudio1Active (p : Player) :
    (ensureActiveElem p).2.isAudio1Active = p.isAudio1Active := by
  unfold ensureActiveElem
  by_cases h : p.isAudio1Active
  · simp only [h, if_true]
    cases p.audio1 <;> simp [h]
  · simp only [h, if_false, Bool.false_eq_true]
    cases p.audio2 <;> simp_all

theorem destroyPreviousBuffer_state (p : Player) :
    (destroyPreviousBuffer p).state = p.state := by
  unfold destroyPreviousBuffer
  by_cases h : p.isAudio1Active
  · simp only [h, if_true]
    cases p.audio2 <;> rfl
  · simp only [h, if_false, Bool.false_eq_true]
    cases p.audio1 <;> rfl

theorem destroyPreviousBuffer_active (p : Player) :
    activeAudioElement (destroyPreviousBuffer p) = activeAudioElement p := by
  unfold destroyPreviousBuffer activeAudioElement
  by_cases h : p.isAudio1Active
  · simp only [h, if_true]
    cases p.audio2 <;> simp [h]
  · simp only [h, if_false, Bool.false_eq_true]
    cases p.audio1 <;> simp [h]

/-! ## Claims -/

/-- Claim C9 (code_bug): evaluation of `getTimeDisplay` at the spec's
round-trip inputs.  The finite cases and NaN and negative infinity agree
with the claim, but positive infinity yields "Infinity:00:00", not "0:00":
lines 51 and 53 of the source read the raw `seconds` after the isFinite
guard zeroed only `remainingTime`. -/
theorem getTimeDisplay_roundTrip_and_posInf :
    getTimeDisplay (JSNum.finite 0) = "0:00"
      ∧ getTimeDisplay (JSNum.finite 65) = "1:05"
      ∧ getTimeDisplay (JSNum.finite 3661) = "1:01:01"
      ∧ getTimeDisplay JSNum.nan = "0:00"
      ∧ getTimeDisplay JSNum.negInf = "0:00"
      ∧ getTimeDisplay JSNum.posInf = "Infinity:00:00" := by
  refine ⟨by decide, by decide, by decide, by decide, by decide, by decide⟩

/-- Claim C1 (code_bug): `playTracks([tA, tB, tC], 2)` on a fresh player
leaves `previousTracks = [tA]`, not `[tA, tB]`: the source assigns
`tracks.slice(0, playIndex - 1)`, dropping `tracks[playIndex - 1]` (here
`tB`) from every list, against the method's own doc comment.  Moreover with
a pre-existing current track `tX`, `playTracks([tA, tB, tC], 1)` re-plays
`tX` instead of promoting `tracks[1]`, because `play()` passes the stored
current track to `playNextTrack` as a manual next track. -/
theorem playTracks_dropsTrack_and_replaysStaleCurrent :
    ((playTracks [tA, tB, tC] 2 player0).state.previousTracks = [tA]
      ∧ (playTracks [tA, tB, tC] 2 player0).state.currentTrack = some tC
      ∧ (playTracks [tA, tB, tC] 2 player0).state.nextTracks = [])
    ∧ ((playTracks [tA, tB, tC] 1 playerWithCurrentX).state.currentTrack = some tX
      ∧ (playTracks [tA, tB, tC] 1 playerWithCurrentX).state.previousTracks = []
      ∧ (playTracks [tA, tB, tC] 1 playerWithCurrentX).state.nextTracks = [tB, tC]) := by
  refine ⟨⟨by decide, by decide, by decide⟩, by decide, by decide, by decide⟩

/-- Claim C2 (code_bug): a second `playTracks` call releases the sink left
by the first call while all four of its event callbacks are still attached:
`playTracks` sets `audio1` and `audio2` to null (src/index.ts lines 327-328)
with no callback teardown. -/
theorem playTracks_releasesSinkWithLiveCallbacks :
    (playTracks [tB] 0 (playTracks [tA] 0 player0)).released.map
        (fun a => (a.hasOnError, a.hasOnProgress, a.hasOnEnded, a.hasOnCanPlayThrough))
      = [(true, true, true, true)] := by
  decide

/-- Claim C5 (code_bug): with state volume 50, activating a track assigns
the sink's volume the raw percent 50 (src/index.ts line 447), not the scaled
50/100. -/
theorem playNextTrack_assignsRawVolume :
    (activeAudioElement (playTracks [tA] 0 player50)).map AudioElem.volume = some 50
      ∧ (50 : ℚ) ≠ qDiv 50 100 := by
  refine ⟨by decide, by decide⟩

/-- Claim C3 counterexample: `enableShuffle` has no try/catch, so a
user-supplied shuffle function that throws propagates the exception to the
caller (second component) and produces no `onError` notification, refuting
the claim that every public operation converts synchronous exceptions into
`onError` notifications. -/
theorem enableShuffle_propagatesThrow :
    (enableShuffle playerThrowingShuffle).2 = some "shuffle boom"
      ∧ (enableShuffle playerThrowingShuffle).1.events = [] := by
  refine ⟨by decide, by decide⟩

/-- Claim C7 counterexample: with an active sink, `setRepeatMode(repeatFull)`
sets the sink's loop flag to true, refuting the claim that loop is true only
for repeatOne: the source sets `loop = repeatMode !== RepeatMode.noRepeat`. -/
theorem setRepeatMode_repeatFull_loops :
    (activeAudioElement (setRepeatMode none RepeatMode.repeatFull playerSink)).map AudioElem.loop
        = some true
      ∧ RepeatMode.repeatFull ≠ RepeatMode.repeatOnce := by
  refine ⟨by decide, by decide⟩

/-- Claim C8 counterexample: `playTracks([tA, tB], 2)` with the out-of-range
start index 2 leaves the queue empty (`tracks.slice(2)` is `[]`), not
holding the full list from its first element: no track is promoted to
`currentTrack`. -/
theorem playTracks_outOfRange_emptyQueue :
    (playTracks [tA, tB] 2 player0).state.previousTracks = []
      ∧ (playTracks [tA, tB] 2 player0).state.currentTrack = none
      ∧ (playTracks [tA, tB] 2 player0).state.nextTracks = []
      ∧ (playTracks [tA, tB] 2 player0).state.currentTrack ≠ some tA := by
  refine ⟨by decide, by decide, by decide, by decide⟩

theorem enableShuffleRun_nonShuffled (p : Player) :
    (enableShuffleRun p).nonShuffledNextTracks = p.nonShuffledNextTracks := by
  simp only [enableShuffleRun, enableShuffle]
  split <;> simp [triggerOnStateChange_nonShuffled]

theorem enableShuffleRun_shuffleFn (p : Player) :
    (enableShuffleRun p).shuffle = p.shuffle := by
  simp only [enableShuffleRun, enableShuffle]
  split <;> simp [triggerOnStateChange_shuffleFn]

theorem enableShuffleRun_randomPick (p : Player) :
    (enableShuffleRun p).randomPick = p.randomPick := by
  simp only [enableShuffleRun, enableShuffle]
  split <;> simp [triggerOnStateChange_randomPick]

theorem disableShuffle_nonShuffled (p : Player) :
    (disableShuffle p).nonShuffledNextTracks = p.nonShuffledNextTracks := by
  unfold disableShuffle
  simp [triggerOnStateChange_nonShuffled]

theorem disableShuffle_shuffleFn (p : Player) :
    (disableShuffle p).shuffle = p.shuffle := by
  unfold disableShuffle
  simp [triggerOnStateChange_shuffleFn]

theorem disableShuffle_randomPick (p : Player) :
    (disableShuffle p).randomPick = p.randomPick := by
  unfold disableShuffle
  simp [triggerOnStateChange_randomPick]

theorem applyShuffleOps_nonShuffled (ops : List Bool) (p : Player) :
    (applyShuffleOps ops p).nonShuffledNextTracks = p.nonShuffledNextTracks := by
  induction ops generalizing p with
  | nil => rfl
  | cons op rest ih =>
    cases op with
    | true => rw [applyShuffleOps, ih, enableShuffleRun_nonShuffled]
    | false => rw [applyShuffleOps, ih, disableShuffle_nonShuffled]

theorem applyShuffleOps_shuffleFn (ops : List Bool) (p : Player) :
    (applyShuffleOps ops p).shuffle = p.shuffle := by
  induction ops generalizing p with
  | nil => rfl
  | cons op rest ih =>
    cases op with
    | true => rw [applyShuffleOps, ih, enableShuffleRun_shuffleFn]
    | false => rw [applyShuffleOps, ih, disableShuffle_shuffleFn]

theorem disableShuffle_nextTracks (p : Player) :
    (disableShuffle p).state.nextTracks = p.nonShuffledNextTracks := by
  unfold disableShuffle
  simp [triggerOnStateChange_state]

theorem resumeActive_currentTrack (p : Player) :
    (resumeActive p).state.currentTrack = p.state.currentTrack :=
  (resumeActive_state_queues p).1

theorem resumeActive_nextTracks (p : Player) :
    (resumeActive p).state.nextTracks = p.state.nextTracks :=
  (resumeActive_state_queues p).2.1

theorem resumeActive_previousTracks (p : Player) :
    (resumeActive p).state.previousTracks = p.state.previousTracks :=
  (resumeActive_state_queues p).2.2.1

theorem resumeActive_priorityTracks (p : Player) :
    (resumeActive p).state.priorityTracks = p.state.priorityTracks :=
  (resumeActive_state_queues p).2.2.2

theorem activeAudioElement_stateUpdate (p : Player) (s : PlayerState) :
    activeAudioElement { p with state := s } = activeAudioElement p := rfl

theorem resumeActive_active (p : Player) (e : AudioElem)
    (h : activeAudioElement p = some e) :
    activeAudioElement (resumeActive p) = some { e with paused := false } := by
  unfold resumeActive
  rw [h]
  rw [triggerOnStateChange_active]
  show activeAudioElement (setActiveAudio p { e with paused := false })
      = some { e with paused := false }
  exact setActiveAudio_active p { e with paused := false }

theorem onErrorNotify_state (m : String) (p : Player) :
    (onErrorNotify m p).state = p.state := by
  unfold onErrorNotify; split <;> rfl

theorem onErrorNotify_events (m : String) (p : Player) (he : p.hasOnError = true) :
    (onErrorNotify m p).events = p.events ++ [PlayerEvent.errored m] := by
  unfold onErrorNotify
  rw [if_pos he]

theorem active_isSome_or (p : Player) (ha : (activeAudioElement p).isSome = true) :
    p.audio1.isSome = true ∨ p.audio2.isSome = true := by
  unfold activeAudioElement at ha
  by_cases h : p.isAudio1Active
  · left; simpa [h] using ha
  · right; simpa [h] using ha

theorem pauseActiveElement_state (p : Player) :
    (pauseActiveElement p).state = p.state := by
  unfold pauseActiveElement
  cases activeAudioElement p
  · rfl
  · rw [setActiveAudio_state]

theorem releaseAudio1Raw_state (p : Player) : (releaseAudio1Raw p).state = p.state := by
  unfold releaseAudio1Raw; cases p.audio1 <;> rfl

theorem releaseAudio1Raw_audio1 (p : Player) : (releaseAudio1Raw p).audio1 = none := by
  unfold releaseAudio1Raw
  cases hp : p.audio1
  · exact hp
  · rfl

theorem releaseAudio2Raw_state (p : Player) : (releaseAudio2Raw p).state = p.state := by
  unfold releaseAudio2Raw; cases p.audio2 <;> rfl

theorem releaseAudio2Raw_audio1 (p : Player) : (releaseAudio2Raw p).audio1 = p.audio1 := by
  unfold releaseAudio2Raw; cases p.audio2 <;> rfl

/-- Claim C4 (confirmed): starting from a player whose `nextTracks` equals
the non-shuffled shadow list and whose shuffle strategy is a pure function
of the track list, any finite sequence of enableShuffle/disableShuffle calls
leaves the shadow list untouched; a further `disableShuffle` restores
`nextTracks` to exactly the original order, and a further `enableShuffle`
hands the shuffle strategy the original-order shadow list (never the
currently-shuffled `nextTracks`). -/
theorem shuffleShadow_invariant (p : Player) (g : List Track → PlayerState → List Track)
    (ops : List Bool)
    (hf : p.shuffle = some (fun l st => Except.ok (g l st)))
    (hbase : p.state.nextTracks = p.nonShuffledNextTracks) :
    (applyShuffleOps ops p).nonShuffledNextTracks = p.state.nextTracks
      ∧ (disableShuffle (applyShuffleOps ops p)).state.nextTracks = p.state.nextTracks
      ∧ (enableShuffleRun (applyShuffleOps ops p)).state.nextTracks
          = g p.state.nextTracks
              { (applyShuffleOps ops p).state with isShuffled := true } := by
  have hns := applyShuffleOps_nonShuffled ops p
  have hsf := applyShuffleOps_shuffleFn ops p
  refine ⟨by rw [hns, hbase], by rw [disableShuffle_nextTracks, hns, hbase], ?_⟩
  simp only [enableShuffleRun, enableShuffle, hsf, hf, triggerOnStateChange_state]
  rw [hns, hbase]

/-- Witness for claim C4 at a concrete player, a reversing shuffle and the
call sequence enable, enable, disable. -/
theorem shuffleShadow_invariant_witness :
    (applyShuffleOps [true, true, false] playerShuffleG).nonShuffledNextTracks = [tA, tB, tC]
      ∧ (disableShuffle (applyShuffleOps [true, true, false] playerShuffleG)).state.nextTracks
          = [tA, tB, tC]
      ∧ (enableShuffleRun (applyShuffleOps [true, true, false] playerShuffleG)).state.nextTracks
          = gRev [tA, tB, tC]
              { (applyShuffleOps [true, true, false] playerShuffleG).state with
                  isShuffled := true } :=
  shuffleShadow_invariant playerShuffleG gRev [true, true, false] rfl rfl

theorem playNextTrack_manual_state (t : Track) (p : Player)
    (hc : p.state.currentTrack = some t) :
    (playNextTrack (some t) p).state.currentTrack = some t
      ∧ (playNextTrack (some t) p).state.nextTracks = p.state.nextTracks
      ∧ (playNextTrack (some t) p).state.previousTracks = p.state.previousTracks := by
  simp only [playNextTrack, popNextTrack, pushCurrentToHistory, hc]
  simp [resumeActive_currentTrack, resumeActive_nextTracks, resumeActive_previousTracks,
    triggerOnTrackStart_state, setActiveAudio_state, ensureActiveElem_state]

theorem previousTrackQueuePart_state (p : Player) (m c : Track) (rest : List Track)
    (hprev : p.state.previousTracks = m :: rest) (hc : p.state.currentTrack = some c) :
    (previousTrackQueuePart p).state.currentTrack = some m
      ∧ (previousTrackQueuePart p).state.nextTracks = c :: p.state.nextTracks
      ∧ (previousTrackQueuePart p).state.previousTracks = rest := by
  simp only [previousTrackQueuePart, hprev, hc]
  refine ⟨(playNextTrack_manual_state m _ rfl).1, ?_, ?_⟩
  · rw [(playNextTrack_manual_state m _ rfl).2.1]
    simp [triggerOnTrackEnd_state]
  · rw [(playNextTrack_manual_state m _ rfl).2.2]

/-- Claim C6 (confirmed): with an active sink `a` and current track `c`,
`previousTrack` at elapsed position at least 3 seconds, or with empty
history, keeps `c` current and restarts the active sink at position 0;
at position under 3 seconds with non-empty history it promotes the most
recent history entry to current, reinserts `c` at the front of
`nextTracks`, and pops the history. -/
theorem previousTrack_spec (p : Player) (a : AudioElem) (c : Track)
    (ha : activeAudioElement p = some a) (hc : p.state.currentTrack = some c) :
    ((3 ≤ a.currentTime ∨ p.state.previousTracks = []) →
        (previousTrack p).state.currentTrack = some c
          ∧ (activeAudioElement (previousTrack p)).map AudioElem.currentTime = some 0)
      ∧ (∀ m rest, a.currentTime < 3 → p.state.previousTracks = m :: rest →
          (previousTrack p).state.currentTrack = some m
            ∧ (previousTrack p).state.nextTracks = c :: p.state.nextTracks
            ∧ (previousTrack p).state.previousTracks = rest) := by
  constructor
  · intro hcond
    simp only [previousTrack, ha]
    rw [if_pos hcond]
    have hc1 : (setActiveAudio p { a with paused := true, currentTime := 0 }).state.currentTrack
        = some c := by rw [setActiveAudio_state]; exact hc
    rw [hc1]
    simp only [Option.isSome_some, if_pos]
    have hact2 : activeAudioElement
        (triggerOnTrackStart (setActiveAudio p { a with paused := true, currentTime := 0 }))
        = some { a with paused := true, currentTime := 0 } := by
      rw [triggerOnTrackStart_active, setActiveAudio_active]
    constructor
    · simp only [play, hact2, resumeActive_currentTrack, triggerOnTrackStart_state,
        setActiveAudio_state]
      exact hc
    · simp only [play, hact2]
      rw [resumeActive_active _ _ hact2]
      rfl
  · intro m rest hlt hprev
    simp only [previousTrack, ha]
    rw [if_neg (by
      rw [hprev]
      push_neg
      exact ⟨hlt, by simp⟩)]
    have hs := setActiveAudio_state p
      { a with paused := true, hasOnCanPlayThrough := false, currentTime := 0 }
    have h1 := previousTrackQueuePart_state
      (setActiveAudio p { a with paused := true, hasOnCanPlayThrough := false, currentTime := 0 })
      m c rest (by rw [hs]; exact hprev) (by rw [hs]; exact hc)
    refine ⟨h1.1, ?_, h1.2.2⟩
    rw [h1.2.1, hs]

/-- Witness for claim C6: `previousTrack` on a player at position 1 with
history `[tB]` promotes `tB`, reinserts `tA` at the front of the queue and
empties the history. -/
theorem previousTrack_spec_witness :
    (previousTrack playerHist).state.currentTrack = some tB
      ∧ (previousTrack playerHist).state.nextTracks = tA :: playerHist.state.nextTracks
      ∧ (previousTrack playerHist).state.previousTracks = [] :=
  (previousTrack_spec playerHist audioAt1 tA rfl rfl).2 tB [] (by decide) rfl

/-- Claim C10 (confirmed): when the queues are exhausted and no manual track
is supplied while a current track `c` exists, `playNextTrack` pushes `c`
onto the front of `previousTracks`, fires the track-end notification for
`c`, and only then publishes the state with `currentTrack` cleared. -/
theorem playNextTrack_exhausted (p : Player) (c : Track)
    (hc : p.state.currentTrack = some c)
    (hpri : p.state.priorityTracks = [])
    (hnext : p.state.nextTracks = [])
    (hte : p.hasOnTrackEnd = true)
    (hsc : p.hasOnStateChanged = true) :
    (playNextTrack none p).state.previousTracks = c :: p.state.previousTracks
      ∧ (playNextTrack none p).state.currentTrack = none
      ∧ (playNextTrack none p).events
          = p.events ++ [PlayerEvent.trackEnd c, PlayerEvent.stateChanged] := by
  simp [playNextTrack, popNextTrack, pushCurrentToHistory, triggerOnTrackEnd,
    triggerOnStateChange, hc, hpri, hnext, hte, hsc]

/-- Witness for claim C10 at a player holding `tA` with empty queues. -/
theorem playNextTrack_exhausted_witness :
    (playNextTrack none playerExhausted).state.previousTracks = [tA]
      ∧ (playNextTrack none playerExhausted).state.currentTrack = none
      ∧ (playNextTrack none playerExhausted).events
          = [PlayerEvent.trackEnd tA, PlayerEvent.stateChanged] :=
  playNextTrack_exhausted playerExhausted tA rfl rfl rfl rfl rfl

theorem playNextTrack_none_nil (p : Player)
    (hpri : p.state.priorityTracks = []) (hnext : p.state.nextTracks = [])
    (hcur : p.state.currentTrack = none) :
    playNextTrack none p = p := by
  simp [playNextTrack, popNextTrack, pushCurrentToHistory, hpri, hnext, hcur]

theorem playNextTrack_none_cons (p : Player) (h : Track) (t : List Track)
    (hpri : p.state.priorityTracks = []) (hnext : p.state.nextTracks = h :: t)
    (hcur : p.state.currentTrack = none) :
    (playNextTrack none p).state.currentTrack = some h
      ∧ (playNextTrack none p).state.nextTracks = t
      ∧ (playNextTrack none p).state.previousTracks = p.state.previousTracks := by
  simp only [playNextTrack, popNextTrack, pushCurrentToHistory, hpri, hnext, hcur]
  by_cases hsh : p.state.isShuffled <;>
    simp [hsh, hcur, resumeActive_currentTrack, resumeActive_nextTracks,
      resumeActive_previousTracks, triggerOnTrackStart_state, setActiveAudio_state,
      ensureActiveElem_state, destroyPreviousBuffer_state]

theorem play_noActive (p : Player) (h : activeAudioElement p = none) :
    play p = playNextTrack p.state.currentTrack p := by
  simp [play, h]

theorem resetQueues_active (tracks : List Track) (playIndex : Int) (p : Player) :
    activeAudioElement (resetQueues tracks playIndex p) = none := by
  unfold resetQueues activeAudioElement
  simp [releaseAudio2Raw_audio1, releaseAudio1Raw_audio1]

theorem resetQueues_state (tracks : List Track) (playIndex : Int) (p : Player) :
    (resetQueues tracks playIndex p).state
      = { p.state with
          priorityTracks := []
          previousTracks :=
            if 0 < playIndex ∧ playIndex < (tracks.length : Int) then
              jsSliceTo tracks (playIndex - 1)
            else []
          nextTracks := jsSliceFrom tracks playIndex } := by
  unfold resetQueues
  simp [releaseAudio2Raw_state, releaseAudio1Raw_state, pauseActiveElement_state]

/-- Claim C8 amended (corrected): with no pre-existing current track, an
out-of-range `startIndex` clears `previousTracks`, and the queue receives
`tracks.slice(startIndex)` under JavaScript slice semantics whose head, when
one exists, is promoted to `currentTrack`; this is the full list only for
`startIndex = 0` or `startIndex ≤ -length`, while `startIndex ≥ length`
leaves the queue empty with no current track. -/
theorem playTracks_outOfRange_spec (tracks : List Track) (playIndex : Int) (p : Player)
    (hcur : p.state.currentTrack = none)
    (hrange : playIndex ≤ 0 ∨ (tracks.length : Int) ≤ playIndex) :
    (playTracks tracks playIndex p).state.previousTracks = []
      ∧ (match jsSliceFrom tracks playIndex with
         | [] => (playTracks tracks playIndex p).state.currentTrack = none
                   ∧ (playTracks tracks playIndex p).state.nextTracks = []
         | h :: t => (playTracks tracks playIndex p).state.currentTrack = some h
                   ∧ (playTracks tracks playIndex p).state.nextTracks = t) := by
  have hno : ¬(0 < playIndex ∧ playIndex < (tracks.length : Int)) := by
    rcases hrange with h | h <;> omega
  have hst := resetQueues_state tracks playIndex p
  have hpri : (resetQueues tracks playIndex p).state.priorityTracks = [] := by rw [hst]
  have hprev : (resetQueues tracks playIndex p).state.previousTracks = [] := by
    rw [hst]; simp [hno]
  have hcur2 : (resetQueues tracks playIndex p).state.currentTrack = none := by
    rw [hst]; exact hcur
  have hnext : (resetQueues tracks playIndex p).state.nextTracks
      = jsSliceFrom tracks playIndex := by rw [hst]
  have hplay : playTracks tracks playIndex p
      = playNextTrack none (resetQueues tracks playIndex p) := by
    unfold playTracks
    rw [play_noActive _ (resetQueues_active tracks playIndex p), hcur2]
  cases hslice : jsSliceFrom tracks playIndex with
  | nil =>
    have hid := playNextTrack_none_nil (resetQueues tracks playIndex p) hpri
      (by rw [hnext, hslice]) hcur2
    rw [hplay, hid]
    exact ⟨hprev, hcur2, by rw [hnext, hslice]⟩
  | cons h t =>
    have hc := playNextTrack_none_cons (resetQueues tracks playIndex p) h t hpri
      (by rw [hnext, hslice]) hcur2
    rw [hplay]
    exact ⟨hc.2.2.trans hprev, hc.1, hc.2.1⟩

/-- Witness for the amended claim C8 at `playTracks([tA, tB], -1)` on a
fresh player: `tracks.slice(-1)` is `[tB]`, whose head becomes current. -/
theorem playTracks_outOfRange_spec_witness :
    (playTracks [tA, tB] (-1) player0).state.previousTracks = []
      ∧ (playTracks [tA, tB] (-1) player0).state.currentTrack = some tB
      ∧ (playTracks [tA, tB] (-1) player0).state.nextTracks = [] := by
  have h := playTracks_outOfRange_spec [tA, tB] (-1) player0 rfl (Or.inl (by decide))
  exact ⟨h.1, h.2⟩

theorem playNextTrackE_none (manual : Option Track) (p : Player) :
    playNextTrackE none manual p = (playNextTrack manual p, none) := by
  simp only [playNextTrackE, playNextTrack]
  cases (popNextTrack manual p).1 with
  | some nt => rfl
  | none =>
    cases (pushCurrentToHistory none (popNextTrack manual p).2).state.currentTrack <;> rfl

theorem playE_none (p : Player) : playE none p = play p := by
  simp only [playE, play, playNextTrackE_none]

theorem previousTrackQueuePartE_none (p : Player) :
    previousTrackQueuePartE none p = (previousTrackQueuePart p, none) := by
  simp only [previousTrackQueuePartE, previousTrackQueuePart, playNextTrackE_none]
  cases p.state.previousTracks with
  | nil => rfl
  | cons shifted rest => cases p.state.currentTrack <;> rfl

theorem previousTrackE_none (p : Player) : previousTrackE none p = previousTrack p := by
  simp only [previousTrackE, previousTrack, playE_none, previousTrackQueuePartE_none]

/-- Claim C3 amended (corrected): the commands that wrap their bodies in
try/catch (`setVolume`, `setRepeatMode`, `pause`, `seek`, `play`,
`previousTrack`, `nextTrack`) convert a synchronously-thrown sink fault into
an `onError` notification and return normally, with the state stores that
precede the throw still applied (the volume and repeat-mode stores) and the
state otherwise untouched; `togglePlay` dispatches to `play`/`pause` and
inherits the conversion.  `enableShuffle` (see the counterexample) has no
such handler and propagates a throwing user shuffle. -/
theorem syncCommands_catchSinkThrow (p : Player) (m : String) (v pos : ℚ)
    (mode : RepeatMode)
    (ha : (activeAudioElement p).isSome = true) (he : p.hasOnError = true) :
    ((setVolume (some m) v p).events = p.events ++ [PlayerEvent.errored m]
        ∧ (setVolume (some m) v p).state.volume = v)
      ∧ ((setRepeatMode (some m) mode p).events = p.events ++ [PlayerEvent.errored m]
        ∧ (setRepeatMode (some m) mode p).state.repeatMode = mode)
      ∧ ((pause (some m) p).events = p.events ++ [PlayerEvent.errored m]
        ∧ (pause (some m) p).state.isPaused = p.state.isPaused)
      ∧ (seek (some m) pos p).events = p.events ++ [PlayerEvent.errored m]
      ∧ ((playE (some m) p).events = p.events ++ [PlayerEvent.errored m]
        ∧ (playE (some m) p).state = p.state)
      ∧ ((togglePlayE (some m) p).events = p.events ++ [PlayerEvent.errored m]
        ∧ (togglePlayE (some m) p).state = p.state)
      ∧ ((previousTrackE (some m) p).events = p.events ++ [PlayerEvent.errored m]
        ∧ (previousTrackE (some m) p).state = p.state)
      ∧ ((nextTrackE (some m) p).events = p.events ++ [PlayerEvent.errored m]
        ∧ (nextTrackE (some m) p).state = p.state) := by
  obtain ⟨a, hact⟩ := Option.isSome_iff_exists.mp ha
  have hpause : pause (some m) p = onErrorNotify m p := by
    simp only [pause]
    rw [hact]
  have hplay : playE (some m) p = onErrorNotify m p := by
    simp only [playE]
    rw [hact]
  have hprev : previousTrackE (some m) p = onErrorNotify m p := by
    simp only [previousTrackE]
    rw [hact]
  have hnext : nextTrackE (some m) p = onErrorNotify m p := by
    simp only [nextTrackE]
    rw [hact]
  have htoggle : togglePlayE (some m) p = onErrorNotify m p := by
    simp only [togglePlayE]
    by_cases hip : p.state.isPaused = true <;> simp [hip, hplay, hpause]
  refine ⟨⟨?_, ?_⟩, ⟨?_, ?_⟩, ⟨?_, ?_⟩, ?_, ⟨?_, ?_⟩, ⟨?_, ?_⟩, ⟨?_, ?_⟩, ?_, ?_⟩
  · simp only [setVolume]
    rw [if_pos (active_isSome_or p ha)]
    exact onErrorNotify_events m _ he
  · simp only [setVolume]
    rw [if_pos (active_isSome_or p ha)]
    rw [onErrorNotify_state]
  · simp only [setRepeatMode]
    rw [activeAudioElement_stateUpdate, hact]
    exact onErrorNotify_events m _ he
  · simp only [setRepeatMode]
    rw [activeAudioElement_stateUpdate, hact]
    rw [onErrorNotify_state]
  · rw [hpause]
    exact onErrorNotify_events m _ he
  · rw [hpause, onErrorNotify_state]
  · simp only [seek]
    rw [hact]
    exact onErrorNotify_events m _ he
  · rw [hplay]
    exact onErrorNotify_events m _ he
  · rw [hplay, onErrorNotify_state]
  · rw [htoggle]
    exact onErrorNotify_events m _ he
  · rw [htoggle, onErrorNotify_state]
  · rw [hprev]
    exact onErrorNotify_events m _ he
  · rw [hprev, onErrorNotify_state]
  · rw [hnext]
    exact onErrorNotify_events m _ he
  · rw [hnext, onErrorNotify_state]

/-- Witness for the amended claim C3 at a player with an active sink. -/
theorem syncCommands_catchSinkThrow_witness :
    ((setVolume (some "sink throw") 30 playerHist).events
        = [PlayerEvent.errored "sink throw"]
      ∧ (setVolume (some "sink throw") 30 playerHist).state.volume = 30)
      ∧ ((setRepeatMode (some "sink throw") RepeatMode.repeatOnce playerHist).events
        = [PlayerEvent.errored "sink throw"]
      ∧ (setRepeatMode (some "sink throw") RepeatMode.repeatOnce playerHist).state.repeatMode
        = RepeatMode.repeatOnce)
      ∧ ((pause (some "sink throw") playerHist).events = [PlayerEvent.errored "sink throw"]
      ∧ (pause (some "sink throw") playerHist).state.isPaused = true)
      ∧ (seek (some "sink throw") 7 playerHist).events = [PlayerEvent.errored "sink throw"]
      ∧ ((playE (some "sink throw") playerHist).events = [PlayerEvent.errored "sink throw"]
      ∧ (playE (some "sink throw") playerHist).state = playerHist.state)
      ∧ ((togglePlayE (some "sink throw") playerHist).events
        = [PlayerEvent.errored "sink throw"]
      ∧ (togglePlayE (some "sink throw") playerHist).state = playerHist.state)
      ∧ ((previousTrackE (some "sink throw") playerHist).events
        = [PlayerEvent.errored "sink throw"]
      ∧ (previousTrackE (some "sink throw") playerHist).state = playerHist.state)
      ∧ ((nextTrackE (some "sink throw") playerHist).events
        = [PlayerEvent.errored "sink throw"]
      ∧ (nextTrackE (some "sink throw") playerHist).state = playerHist.state) :=
  syncCommands_catchSinkThrow playerHist "sink throw" 30 7 RepeatMode.repeatOnce
    (by decide) (by decide)

/-- Claim C7 amended (corrected): `setRepeatMode(mode)` stores `mode` and,
when an active sink exists, sets its loop flag to `mode ≠ noRepeat` — true
for both repeatOnce and repeatFull, false only for noRepeat. -/
theorem setRepeatMode_spec (p : Player) (mode : RepeatMode) :
    (setRepeatMode none mode p).state.repeatMode = mode
      ∧ (∀ a, activeAudioElement p = some a →
          (activeAudioElement (setRepeatMode none mode p)).map AudioElem.loop
            = some (decide (mode ≠ RepeatMode.noRepeat))) := by
  constructor
  · simp only [setRepeatMode]
    cases hact : activeAudioElement { p with state := { p.state with repeatMode := mode } }
    · rw [triggerOnStateChange_state]
    · rw [triggerOnStateChange_state, setActiveAudio_state]
  · intro a hact
    have hact1 : activeAudioElement { p with state := { p.state with repeatMode := mode } }
        = some a := hact
    simp only [setRepeatMode]
    rw [hact1, triggerOnStateChange_active, setActiveAudio_active]
    rfl

/-- Witness for the amended claim C7: repeatFull switches the active sink's
loop flag on. -/
theorem setRepeatMode_spec_witness :
    (setRepeatMode none RepeatMode.repeatFull playerHist).state.repeatMode
        = RepeatMode.repeatFull
      ∧ (activeAudioElement (setRepeatMode none RepeatMode.repeatFull playerHist)).map
          AudioElem.loop = some (decide (RepeatMode.repeatFull ≠ RepeatMode.noRepeat)) :=
  ⟨(setRepeatMode_spec playerHist RepeatMode.repeatFull).1,
    (setRepeatMode_spec playerHist RepeatMode.repeatFull).2 audioAt1 (by decide)⟩
